import Mathlib

/-!
Formalisation of the core components of the `dict_based_learning` repository:

* `DebugLSTM` from `dictlearn/stuff.py`: a peephole LSTM recurrent cell.
  Theano tensors are modelled as matrices with explicit runtime shape fields
  and a total entry function over `ℝ`; elementwise and dot operations check
  shapes at runtime exactly as Theano does when evaluating a compiled graph,
  returning `none` on a shape mismatch.  Python column slicing
  `x[:, lo:hi]` clamps its bounds, which `Mat.sliceCols` reproduces.
  The pluggable activation bricks (`activation`, `gate_activation`) are
  modelled as function parameters; the defaults in the source are
  `Tanh` and `Logistic` (the sigmoid).

* The `Dictionary` lookup structure exercised by `tests/test_dict.py`.
  Its implementation (`dictlearn/retrieval.py`) is not part of the
  provided sources, so it is modelled from the specification.
-/

namespace DictLearn

/-- A real matrix with explicit runtime shape `(rows, cols)`.  Entries are a
total function; only indices `i < rows`, `j < cols` are meaningful. -/
structure Mat where
  rows : Nat
  cols : Nat
  entry : Nat → Nat → ℝ

/-- A real vector with explicit runtime length. -/
structure Vec where
  len : Nat
  entry : Nat → ℝ

/-- Elementwise addition of two tensors (Theano `+`): shapes must agree
exactly, otherwise evaluation fails with a shape-mismatch error. -/
def Mat.add (A B : Mat) : Option Mat :=
  if A.rows = B.rows ∧ A.cols = B.cols then
    some ⟨A.rows, A.cols, fun i j => A.entry i j + B.entry i j⟩
  else none

/-- Elementwise (Hadamard) product of two tensors (Theano `*`). -/
def Mat.mul (A B : Mat) : Option Mat :=
  if A.rows = B.rows ∧ A.cols = B.cols then
    some ⟨A.rows, A.cols, fun i j => A.entry i j * B.entry i j⟩
  else none

/-- Product of a matrix with a vector broadcast along rows
(Theano `matrix * vector`, vector of length `cols`): used for the
diagonal peephole terms such as `cells * self.W_cell_to_in`. -/
def Mat.mulRowVec (A : Mat) (v : Vec) : Option Mat :=
  if A.cols = v.len then
    some ⟨A.rows, A.cols, fun i j => A.entry i j * v.entry j⟩
  else none

/-- Matrix product (Theano `tensor.dot`): inner dimensions must agree. -/
def Mat.dot (A B : Mat) : Option Mat :=
  if A.cols = B.rows then
    some ⟨A.rows, B.cols,
      fun i j => ∑ k ∈ Finset.range A.cols, A.entry i k * B.entry k j⟩
  else none

/-- Apply a scalar function elementwise (an activation brick's `apply`). -/
def Mat.map (f : ℝ → ℝ) (A : Mat) : Mat :=
  ⟨A.rows, A.cols, fun i j => f (A.entry i j)⟩

/-- Python column slice `x[:, lo:hi]`: bounds are clamped to the number of
columns, exactly as Python slicing does. -/
def Mat.sliceCols (A : Mat) (lo hi : Nat) : Mat :=
  ⟨A.rows, min hi A.cols - min lo A.cols, fun i j => A.entry i (min lo A.cols + j)⟩

/-- Two matrices agree as tensors with shape `(r, c)` and entries `f`. -/
def Mat.EqOn (A : Mat) (r c : Nat) (f : Nat → Nat → ℝ) : Prop :=
  A.rows = r ∧ A.cols = c ∧ ∀ i j, i < r → j < c → A.entry i j = f i j

/-! ## The definition dictionary

`dictlearn/retrieval.py` is not among the provided sources; only its test
`tests/test_dict.py` is.  The lookup structure is therefore modelled from
the specification. -/

/-- Modelled from the spec: the data loaded by `Dictionary.__init__` from
`dictlearn/retrieval.py` (not in the provided sources) — "a persisted
mapping from textual keys to lists of token-sequences": an association
list from keys (words or whitespace-joined phrases) to ordered lists of
definitions, each definition an ordered list of tokens. -/
abbrev DictData : Type := List (String × List (List String))

/-- Modelled from the spec: `Dictionary.get_definitions` from
`dictlearn/retrieval.py` (not in the provided sources) — "attempt an exact
lookup of the full query string as a phrase key; if found, return its
definition list"; "returns an empty result (not an error) when the key is
entirely absent". -/
def get_definitions (data : DictData) (query : String) : List (List String) :=
  match data.find? (fun kv => kv.fst == query) with
  | some kv => kv.snd
  | none => []

/-- The dictionary content of the test scenario
`{'a': [['b','c'],['d','e']], 'd c': [['a','b']]}`. -/
def TEST_DICT : DictData :=
  [("a", [["b", "c"], ["d", "e"]]), ("d c", [["a", "b"]])]

/-- C2: For a dictionary loaded from data containing exactly the entries
`{'a': [['b','c'],['d','e']], 'd c': [['a','b']]}`, `get_definitions 'a'`
returns `[['b','c'],['d','e']]` and `get_definitions 'd c'` returns
`[['a','b']]`: the exact multi-token phrase key `'d c'` is matched as a
whole before any per-token fallback is attempted. -/
theorem C2_phrase_lookup :
    get_definitions TEST_DICT "a" = [["b", "c"], ["d", "e"]] ∧
    get_definitions TEST_DICT "d c" = [["a", "b"]] := by
  constructor <;> rfl

/-- C7: For every query string whose key is entirely absent from the loaded
dictionary data, `get_definitions` returns an empty list (and, being a total
function, never raises an error). -/
theorem C7_absent_key_empty (data : DictData) (query : String)
    (habsent : ∀ kv ∈ data, kv.fst ≠ query) :
    get_definitions data query = [] := by
  unfold get_definitions
  have hfind : data.find? (fun kv => kv.fst == query) = none := by
    apply List.find?_eq_none.mpr
    intro kv hkv
    simpa using habsent kv hkv
  rw [hfind]

/-- Witness for C7 at a concrete input: the key `"x"` is absent from the
test dictionary and lookup returns the empty list. -/
theorem C7_absent_key_empty_witness :
    (∀ kv ∈ TEST_DICT, kv.fst ≠ "x") ∧ get_definitions TEST_DICT "x" = [] :=
  ⟨by decide, C7_absent_key_empty TEST_DICT "x" (by decide)⟩

/-! ## The `DebugLSTM` recurrent cell (`dictlearn/stuff.py`) -/

/-- The parameters of `DebugLSTM`, as created by `_allocate`:
`W_state : (dim, 4*dim)`, the three diagonal peephole vectors of length
`dim`, and the two learned initial vectors of length `dim`. -/
structure LSTMParams where
  W_state : Mat
  W_cell_to_in : Vec
  W_cell_to_forget : Vec
  W_cell_to_out : Vec
  initial_state_ : Vec
  initial_cells : Vec

/-- The logistic sigmoid, the `Logistic` brick that `DebugLSTM` uses as
default `gate_activation`. -/
noncomputable def sigmoid (x : ℝ) : ℝ := 1 / (1 + Real.exp (-x))

/-- The mask blend `mask[:, None] * new + (1 - mask[:, None]) * old` from
`DebugLSTM.inner_apply`: the 1-D mask of shape `(batch,)` is reshaped to
`(batch, 1)` and broadcast across all columns of a row. -/
def maskBlend (m : Vec) (newM oldM : Mat) : Option Mat :=
  if m.len = newM.rows ∧ newM.rows = oldM.rows ∧ newM.cols = oldM.cols then
    some ⟨newM.rows, newM.cols,
      fun i j => m.entry i * newM.entry i j + (1 - m.entry i) * oldM.entry i j⟩
  else none

/-- `slice_last` from `DebugLSTM.inner_apply`:
`x[:, no*self.dim : (no+1)*self.dim]`. -/
def slice_last (dim : Nat) (x : Mat) (no : Nat) : Mat :=
  x.sliceCols (no * dim) ((no + 1) * dim)

/-- `DebugLSTM.inner_apply`, one step of the transition.  `g` is the
`gate_activation` brick (default `Logistic`), `a` the `activation` brick
(default `Tanh`); `p` holds the allocated parameters.  Shape-checked
operations are sequenced in source order, so the step fails (returns
`none`) at the first operation whose operand shapes mismatch, exactly
where a compiled Theano graph would raise. -/
noncomputable def inner_apply (dim : Nat) (g a : ℝ → ℝ) (p : LSTMParams)
    (inputs states cells : Mat) (mask : Option Vec) :
    Option (Mat × Mat × Mat × Mat × Mat) := do
  let activation ← Mat.add (← Mat.dot states p.W_state) inputs
  let in_gate := Mat.map g
    (← Mat.add (slice_last dim activation 0) (← Mat.mulRowVec cells p.W_cell_to_in))
  let forget_gate := Mat.map g
    (← Mat.add (slice_last dim activation 1) (← Mat.mulRowVec cells p.W_cell_to_forget))
  let next_cells ← Mat.add (← Mat.mul forget_gate cells)
    (← Mat.mul in_gate (Mat.map a (slice_last dim activation 2)))
  let out_gate := Mat.map g
    (← Mat.add (slice_last dim activation 3) (← Mat.mulRowVec next_cells p.W_cell_to_out))
  let next_states ← Mat.mul out_gate (Mat.map a next_cells)
  match mask with
  | none => pure (next_states, next_cells, in_gate, forget_gate, out_gate)
  | some m => do
      let masked_states ← maskBlend m next_states states
      let masked_cells ← maskBlend m next_cells cells
      pure (masked_states, masked_cells, in_gate, forget_gate, out_gate)

/-- `tensor.repeat(v[None, :], batch_size, 0)`: broadcast a vector to
`batch_size` identical rows. -/
def repeatRow (v : Vec) (batch_size : Nat) : Mat :=
  ⟨batch_size, v.len, fun _ j => v.entry j⟩

/-- `DebugLSTM.initial_states`: the learned `initial_state_` and
`initial_cells` vectors broadcast to `batch_size` rows. -/
def initial_states (p : LSTMParams) (batch_size : Nat) : Mat × Mat :=
  (repeatRow p.initial_state_ batch_size, repeatRow p.initial_cells batch_size)

/-- `DebugLSTM._allocate`: `W_state` and the peephole vectors are filled
with NaNs (modelled by an arbitrary junk value `nan`, to be overwritten by
weight initialisation), while `initial_state_` and `initial_cells` are
created as all-zero vectors of length `dim`. -/
def allocate (dim : Nat) (nan : ℝ) : LSTMParams where
  W_state := ⟨dim, 4 * dim, fun _ _ => nan⟩
  W_cell_to_in := ⟨dim, fun _ => nan⟩
  W_cell_to_forget := ⟨dim, fun _ => nan⟩
  W_cell_to_out := ⟨dim, fun _ => nan⟩
  initial_state_ := ⟨dim, fun _ => 0⟩
  initial_cells := ⟨dim, fun _ => 0⟩

/-- `DebugLSTM._initialize` (renamed here): `weights_init.initialize` is
applied to `self.parameters[:4]` only, i.e. to `W_state` and the three
peephole vectors.  The values drawn from the initialiser and rng are
modelled by the entry suppliers `fW` and `f_in`, `f_forget`, `f_out`;
each parameter keeps its allocated shape, and the remaining parameters
(`initial_state_`, `initial_cells`) are untouched. -/
def initWeights (fW : Nat → Nat → ℝ) (f_in f_forget f_out : Nat → ℝ)
    (p : LSTMParams) : LSTMParams :=
  { p with
    W_state := ⟨p.W_state.rows, p.W_state.cols, fW⟩
    W_cell_to_in := ⟨p.W_cell_to_in.len, f_in⟩
    W_cell_to_forget := ⟨p.W_cell_to_forget.len, f_forget⟩
    W_cell_to_out := ⟨p.W_cell_to_out.len, f_out⟩ }

/-! ### Entry-level closed forms of one unmasked step

These are the entrywise values that `inner_apply` computes on well-shaped
operands, with generic activation `a` and gate activation `g`.  They are
established against `inner_apply` in `inner_apply_none_eq` below. -/

/-- Entry `(i, j)` of `tensor.dot(states, W_state) + inputs`. -/
def preE (dim : Nat) (p : LSTMParams) (inputs states : Mat) (i j : Nat) : ℝ :=
  (∑ k ∈ Finset.range dim, states.entry i k * p.W_state.entry k j) + inputs.entry i j

/-- Entry `(i, j)` of the input gate. -/
def inGateE (dim : Nat) (g : ℝ → ℝ) (p : LSTMParams)
    (inputs states cells : Mat) (i j : Nat) : ℝ :=
  g (preE dim p inputs states i j + cells.entry i j * p.W_cell_to_in.entry j)

/-- Entry `(i, j)` of the forget gate. -/
def forgetGateE (dim : Nat) (g : ℝ → ℝ) (p : LSTMParams)
    (inputs states cells : Mat) (i j : Nat) : ℝ :=
  g (preE dim p inputs states i (dim + j) + cells.entry i j * p.W_cell_to_forget.entry j)

/-- Entry `(i, j)` of the next cell state. -/
def cellsE (dim : Nat) (g a : ℝ → ℝ) (p : LSTMParams)
    (inputs states cells : Mat) (i j : Nat) : ℝ :=
  forgetGateE dim g p inputs states cells i j * cells.entry i j +
    inGateE dim g p inputs states cells i j * a (preE dim p inputs states i (2 * dim + j))

/-- Entry `(i, j)` of the output gate. -/
def outGateE (dim : Nat) (g a : ℝ → ℝ) (p : LSTMParams)
    (inputs states cells : Mat) (i j : Nat) : ℝ :=
  g (preE dim p inputs states i (3 * dim + j) +
    cellsE dim g a p inputs states cells i j * p.W_cell_to_out.entry j)

/-- Entry `(i, j)` of the next hidden state. -/
def hiddenE (dim : Nat) (g a : ℝ → ℝ) (p : LSTMParams)
    (inputs states cells : Mat) (i j : Nat) : ℝ :=
  outGateE dim g a p inputs states cells i j *
    a (cellsE dim g a p inputs states cells i j)

set_option maxHeartbeats 2000000 in
/-- On well-shaped operands, the unmasked step succeeds and every output is
the `(batch, dim)` tensor of the corresponding entry-level closed form. -/
theorem inner_apply_none_eq (dim batch : Nat) (g a : ℝ → ℝ) (p : LSTMParams)
    (inputs states cells : Mat)
    (hsr : states.rows = batch) (hsc : states.cols = dim)
    (hcr : cells.rows = batch) (hcc : cells.cols = dim)
    (hir : inputs.rows = batch) (hic : inputs.cols = 4 * dim)
    (hWr : p.W_state.rows = dim) (hWc : p.W_state.cols = 4 * dim)
    (hvi : p.W_cell_to_in.len = dim) (hvf : p.W_cell_to_forget.len = dim)
    (hvo : p.W_cell_to_out.len = dim) :
    inner_apply dim g a p inputs states cells none =
      some (⟨batch, dim, fun i j => hiddenE dim g a p inputs states cells i j⟩,
            ⟨batch, dim, fun i j => cellsE dim g a p inputs states cells i j⟩,
            ⟨batch, dim, fun i j => inGateE dim g p inputs states cells i j⟩,
            ⟨batch, dim, fun i j => forgetGateE dim g p inputs states cells i j⟩,
            ⟨batch, dim, fun i j => outGateE dim g a p inputs states cells i j⟩) := by
  obtain ⟨W, pin, pforget, pout, pis, pic⟩ := p
  obtain ⟨wr, wc, we⟩ := W
  obtain ⟨n1, f1⟩ := pin
  obtain ⟨n2, f2⟩ := pforget
  obtain ⟨n3, f3⟩ := pout
  obtain ⟨sr, sc, se⟩ := states
  obtain ⟨cr, cc, ce⟩ := cells
  obtain ⟨ir, ic, ie⟩ := inputs
  dsimp only at hsr hsc hcr hcc hir hic hWr hWc hvi hvf hvo
  simp only [hsr, hsc, hcr, hcc, hir, hic, hWr, hWc, hvi, hvf, hvo]
  have m0 : min 0 (4 * dim) = 0 := by omega
  have m1 : min dim (4 * dim) = dim := by omega
  have m2 : min (2 * dim) (4 * dim) = 2 * dim := by omega
  have m3 : min (3 * dim) (4 * dim) = 3 * dim := by omega
  have m4 : min (4 * dim) (4 * dim) = 4 * dim := by omega
  have s1 : 2 * dim - dim = dim := by omega
  have s2 : 3 * dim - 2 * dim = dim := by omega
  have s3 : 4 * dim - 3 * dim = dim := by omega
  have t0 : 0 * dim = 0 := by omega
  have t1 : (0 + 1) * dim = dim := by omega
  have t2 : (1 + 1) * dim = 2 * dim := by omega
  have t3 : (2 + 1) * dim = 3 * dim := by omega
  have t4 : (3 + 1) * dim = 4 * dim := by omega
  simp only [inner_apply, Option.bind_eq_bind, Option.some_bind, Option.pure_def,
    Mat.dot, Mat.add, Mat.mul, Mat.mulRowVec, Mat.map, slice_last, Mat.sliceCols,
    t0, t1, t2, t3, t4, m0, m1, m2, m3, m4, s1, s2, s3, one_mul,
    Nat.sub_zero, zero_add, eq_self_iff_true, and_self, if_true,
    hiddenE, cellsE, inGateE, forgetGateE, outGateE, preE]

set_option maxHeartbeats 2000000 in
/-- On well-shaped operands with a mask of matching batch length, the step
succeeds; the hidden and cell outputs are the per-row blend
`mask * new + (1 - mask) * old` of the unmasked closed forms with the
previous states, and the gate outputs are unblended. -/
theorem inner_apply_some_eq (dim batch : Nat) (g a : ℝ → ℝ) (p : LSTMParams)
    (inputs states cells : Mat) (m : Vec)
    (hsr : states.rows = batch) (hsc : states.cols = dim)
    (hcr : cells.rows = batch) (hcc : cells.cols = dim)
    (hir : inputs.rows = batch) (hic : inputs.cols = 4 * dim)
    (hWr : p.W_state.rows = dim) (hWc : p.W_state.cols = 4 * dim)
    (hvi : p.W_cell_to_in.len = dim) (hvf : p.W_cell_to_forget.len = dim)
    (hvo : p.W_cell_to_out.len = dim) (hm : m.len = batch) :
    inner_apply dim g a p inputs states cells (some m) =
      some (⟨batch, dim, fun i j =>
              m.entry i * hiddenE dim g a p inputs states cells i j +
                (1 - m.entry i) * states.entry i j⟩,
            ⟨batch, dim, fun i j =>
              m.entry i * cellsE dim g a p inputs states cells i j +
                (1 - m.entry i) * cells.entry i j⟩,
            ⟨batch, dim, fun i j => inGateE dim g p inputs states cells i j⟩,
            ⟨batch, dim, fun i j => forgetGateE dim g p inputs states cells i j⟩,
            ⟨batch, dim, fun i j => outGateE dim g a p inputs states cells i j⟩) := by
  obtain ⟨W, pin, pforget, pout, pis, pic⟩ := p
  obtain ⟨wr, wc, we⟩ := W
  obtain ⟨n1, f1⟩ := pin
  obtain ⟨n2, f2⟩ := pforget
  obtain ⟨n3, f3⟩ := pout
  obtain ⟨sr, sc, se⟩ := states
  obtain ⟨cr, cc, ce⟩ := cells
  obtain ⟨ir, ic, ie⟩ := inputs
  obtain ⟨ml, me⟩ := m
  dsimp only at hsr hsc hcr hcc hir hic hWr hWc hvi hvf hvo hm
  simp only [hsr, hsc, hcr, hcc, hir, hic, hWr, hWc, hvi, hvf, hvo, hm]
  have m0 : min 0 (4 * dim) = 0 := by omega
  have m1 : min dim (4 * dim) = dim := by omega
  have m2 : min (2 * dim) (4 * dim) = 2 * dim := by omega
  have m3 : min (3 * dim) (4 * dim) = 3 * dim := by omega
  have m4 : min (4 * dim) (4 * dim) = 4 * dim := by omega
  have s1 : 2 * dim - dim = dim := by omega
  have s2 : 3 * dim - 2 * dim = dim := by omega
  have s3 : 4 * dim - 3 * dim = dim := by omega
  have t0 : 0 * dim = 0 := by omega
  have t1 : (0 + 1) * dim = dim := by omega
  have t2 : (1 + 1) * dim = 2 * dim := by omega
  have t3 : (2 + 1) * dim = 3 * dim := by omega
  have t4 : (3 + 1) * dim = 4 * dim := by omega
  simp only [inner_apply, Option.bind_eq_bind, Option.some_bind, Option.pure_def,
    Mat.dot, Mat.add, Mat.mul, Mat.mulRowVec, Mat.map, slice_last, Mat.sliceCols,
    maskBlend, t0, t1, t2, t3, t4, m0, m1, m2, m3, m4, s1, s2, s3, one_mul,
    Nat.sub_zero, zero_add, eq_self_iff_true, and_self, if_true,
    hiddenE, cellsE, inGateE, forgetGateE, outGateE, preE]

/-! ### The specified step, written from the specification text

The spec fixes the default activations: sigmoid for the gates, tanh for
the main activation. -/

/-- Spec step 1: `projection = hidden_state · W_state + inputs`. -/
def specProjection (dim : Nat) (p : LSTMParams) (inputs states : Mat)
    (i j : Nat) : ℝ :=
  (∑ k ∈ Finset.range dim, states.entry i k * p.W_state.entry k j) +
    inputs.entry i j

/-- Spec step 2: the projection is sliced into four contiguous dim-wide
chunks in the order [input-gate, forget-gate, cell-candidate, output-gate];
chunk `no` covers columns `[no*dim, (no+1)*dim)`. -/
def specSlice (dim : Nat) (p : LSTMParams) (inputs states : Mat)
    (no i j : Nat) : ℝ :=
  specProjection dim p inputs states i (no * dim + j)

/-- Spec step 3: `input_gate = sigmoid(slice0 + cell_state ⊙ W_cell_to_in)`,
with the previous cell state in the peephole term. -/
noncomputable def specInputGate (dim : Nat) (p : LSTMParams)
    (inputs states cells : Mat) (i j : Nat) : ℝ :=
  sigmoid (specSlice dim p inputs states 0 i j +
    cells.entry i j * p.W_cell_to_in.entry j)

/-- Spec step 4: `forget_gate = sigmoid(slice1 + cell_state ⊙ W_cell_to_forget)`,
with the previous cell state in the peephole term. -/
noncomputable def specForgetGate (dim : Nat) (p : LSTMParams)
    (inputs states cells : Mat) (i j : Nat) : ℝ :=
  sigmoid (specSlice dim p inputs states 1 i j +
    cells.entry i j * p.W_cell_to_forget.entry j)

/-- Spec step 5: `next_cell = forget_gate ⊙ cell_state + input_gate ⊙ tanh(slice2)`. -/
noncomputable def specNextCell (dim : Nat) (p : LSTMParams)
    (inputs states cells : Mat) (i j : Nat) : ℝ :=
  specForgetGate dim p inputs states cells i j * cells.entry i j +
    specInputGate dim p inputs states cells i j *
      Real.tanh (specSlice dim p inputs states 2 i j)

/-- Spec step 6: `output_gate = sigmoid(slice3 + next_cell ⊙ W_cell_to_out)`,
with the new cell state in the peephole term. -/
noncomputable def specOutputGate (dim : Nat) (p : LSTMParams)
    (inputs states cells : Mat) (i j : Nat) : ℝ :=
  sigmoid (specSlice dim p inputs states 3 i j +
    specNextCell dim p inputs states cells i j * p.W_cell_to_out.entry j)

/-- Spec step 7: `next_hidden = output_gate ⊙ tanh(next_cell)`. -/
noncomputable def specNextHidden (dim : Nat) (p : LSTMParams)
    (inputs states cells : Mat) (i j : Nat) : ℝ :=
  specOutputGate dim p inputs states cells i j *
    Real.tanh (specNextCell dim p inputs states cells i j)

theorem inGateE_eq_spec (dim : Nat) (p : LSTMParams)
    (inputs states cells : Mat) (i j : Nat) :
    inGateE dim sigmoid p inputs states cells i j =
      specInputGate dim p inputs states cells i j := by
  simp [inGateE, specInputGate, specSlice, specProjection, preE]

theorem forgetGateE_eq_spec (dim : Nat) (p : LSTMParams)
    (inputs states cells : Mat) (i j : Nat) :
    forgetGateE dim sigmoid p inputs states cells i j =
      specForgetGate dim p inputs states cells i j := by
  simp [forgetGateE, specForgetGate, specSlice, specProjection, preE]

theorem cellsE_eq_spec (dim : Nat) (p : LSTMParams)
    (inputs states cells : Mat) (i j : Nat) :
    cellsE dim sigmoid Real.tanh p inputs states cells i j =
      specNextCell dim p inputs states cells i j := by
  simp [cellsE, specNextCell, specSlice, specProjection, preE,
    inGateE_eq_spec, forgetGateE_eq_spec]

theorem outGateE_eq_spec (dim : Nat) (p : LSTMParams)
    (inputs states cells : Mat) (i j : Nat) :
    outGateE dim sigmoid Real.tanh p inputs states cells i j =
      specOutputGate dim p inputs states cells i j := by
  simp [outGateE, specOutputGate, specSlice, specProjection, preE,
    cellsE_eq_spec]

theorem hiddenE_eq_spec (dim : Nat) (p : LSTMParams)
    (inputs states cells : Mat) (i j : Nat) :
    hiddenE dim sigmoid Real.tanh p inputs states cells i j =
      specNextHidden dim p inputs states cells i j := by
  simp [hiddenE, specNextHidden, outGateE_eq_spec, cellsE_eq_spec]

/-- C1: For every batch of inputs of shape `(batch, 4*dim)` and previous
hidden/cell states of shape `(batch, dim)`, one unmasked step of the
recurrent cell computes the projection `hidden_state · W_state + inputs`,
slices it into four contiguous dim-wide chunks in the order
[input-gate, forget-gate, cell-candidate, output-gate], computes
`input_gate` and `forget_gate` by sigmoid with the previous cell state
in their peephole terms, `next_cell = forget_gate * cell_state +
input_gate * tanh(slice2)`, `output_gate` by sigmoid with the new cell
state in its peephole term, and `next_hidden = output_gate * tanh(next_cell)`. -/
theorem C1_unmasked_step_matches_spec (dim batch : Nat) (p : LSTMParams)
    (inputs states cells : Mat)
    (hsr : states.rows = batch) (hsc : states.cols = dim)
    (hcr : cells.rows = batch) (hcc : cells.cols = dim)
    (hir : inputs.rows = batch) (hic : inputs.cols = 4 * dim)
    (hWr : p.W_state.rows = dim) (hWc : p.W_state.cols = 4 * dim)
    (hvi : p.W_cell_to_in.len = dim) (hvf : p.W_cell_to_forget.len = dim)
    (hvo : p.W_cell_to_out.len = dim) :
    ∃ nextH nextC inG fG outG,
      inner_apply dim sigmoid Real.tanh p inputs states cells none =
        some (nextH, nextC, inG, fG, outG) ∧
      Mat.EqOn nextH batch dim (specNextHidden dim p inputs states cells) ∧
      Mat.EqOn nextC batch dim (specNextCell dim p inputs states cells) ∧
      Mat.EqOn inG batch dim (specInputGate dim p inputs states cells) ∧
      Mat.EqOn fG batch dim (specForgetGate dim p inputs states cells) ∧
      Mat.EqOn outG batch dim (specOutputGate dim p inputs states cells) := by
  refine ⟨_, _, _, _, _,
    inner_apply_none_eq dim batch sigmoid Real.tanh p inputs states cells
      hsr hsc hcr hcc hir hic hWr hWc hvi hvf hvo,
    ⟨rfl, rfl, fun i j _ _ => hiddenE_eq_spec dim p inputs states cells i j⟩,
    ⟨rfl, rfl, fun i j _ _ => cellsE_eq_spec dim p inputs states cells i j⟩,
    ⟨rfl, rfl, fun i j _ _ => inGateE_eq_spec dim p inputs states cells i j⟩,
    ⟨rfl, rfl, fun i j _ _ => forgetGateE_eq_spec dim p inputs states cells i j⟩,
    ⟨rfl, rfl, fun i j _ _ => outGateE_eq_spec dim p inputs states cells i j⟩⟩

/-- C3: When a mask of shape `(batch,)` is supplied to the recurrent step,
every output position is the per-element blend
`mask * new_value + (1 - mask) * old_value`, applied to both the hidden
state and the cell state, with the mask value of each batch row broadcast
across all dim components of that row. -/
theorem C3_mask_blend (dim batch : Nat) (g a : ℝ → ℝ) (p : LSTMParams)
    (inputs states cells : Mat) (m : Vec)
    (hsr : states.rows = batch) (hsc : states.cols = dim)
    (hcr : cells.rows = batch) (hcc : cells.cols = dim)
    (hir : inputs.rows = batch) (hic : inputs.cols = 4 * dim)
    (hWr : p.W_state.rows = dim) (hWc : p.W_state.cols = 4 * dim)
    (hvi : p.W_cell_to_in.len = dim) (hvf : p.W_cell_to_forget.len = dim)
    (hvo : p.W_cell_to_out.len = dim) (hm : m.len = batch) :
    ∃ newH newC inG fG outG nextH nextC,
      inner_apply dim g a p inputs states cells none =
        some (newH, newC, inG, fG, outG) ∧
      inner_apply dim g a p inputs states cells (some m) =
        some (nextH, nextC, inG, fG, outG) ∧
      Mat.EqOn nextH batch dim (fun i j =>
        m.entry i * newH.entry i j + (1 - m.entry i) * states.entry i j) ∧
      Mat.EqOn nextC batch dim (fun i j =>
        m.entry i * newC.entry i j + (1 - m.entry i) * cells.entry i j) := by
  refine ⟨_, _, _, _, _, _, _,
    inner_apply_none_eq dim batch g a p inputs states cells
      hsr hsc hcr hcc hir hic hWr hWc hvi hvf hvo,
    inner_apply_some_eq dim batch g a p inputs states cells m
      hsr hsc hcr hcc hir hic hWr hWc hvi hvf hvo hm,
    ⟨rfl, rfl, fun i j _ _ => rfl⟩, ⟨rfl, rfl, fun i j _ _ => rfl⟩⟩

/-- C4: For every valid input and previous states, a step of the recurrent
cell with a mask equal to all-zeros returns `next_hidden` exactly equal to
the previous hidden state and `next_cell` exactly equal to the previous
cell state (no component is updated). -/
theorem C4_zero_mask_no_update (dim batch : Nat) (g a : ℝ → ℝ)
    (p : LSTMParams) (inputs states cells : Mat) (m : Vec)
    (hsr : states.rows = batch) (hsc : states.cols = dim)
    (hcr : cells.rows = batch) (hcc : cells.cols = dim)
    (hir : inputs.rows = batch) (hic : inputs.cols = 4 * dim)
    (hWr : p.W_state.rows = dim) (hWc : p.W_state.cols = 4 * dim)
    (hvi : p.W_cell_to_in.len = dim) (hvf : p.W_cell_to_forget.len = dim)
    (hvo : p.W_cell_to_out.len = dim) (hm : m.len = batch)
    (hzero : ∀ i, i < batch → m.entry i = 0) :
    ∃ nextH nextC inG fG outG,
      inner_apply dim g a p inputs states cells (some m) =
        some (nextH, nextC, inG, fG, outG) ∧
      Mat.EqOn nextH batch dim states.entry ∧
      Mat.EqOn nextC batch dim cells.entry := by
  refine ⟨_, _, _, _, _,
    inner_apply_some_eq dim batch g a p inputs states cells m
      hsr hsc hcr hcc hir hic hWr hWc hvi hvf hvo hm,
    ⟨rfl, rfl, fun i j hi _ => ?_⟩, ⟨rfl, rfl, fun i j hi _ => ?_⟩⟩ <;>
  · show _ * _ + (1 - _) * _ = _
    rw [hzero i hi]
    ring

/-- C5: For every valid input and previous states, a step of the recurrent
cell with a mask equal to all-ones returns exactly the same next hidden
state and next cell state as the same step invoked with no mask at all. -/
theorem C5_ones_mask_eq_unmasked (dim batch : Nat) (g a : ℝ → ℝ)
    (p : LSTMParams) (inputs states cells : Mat) (m : Vec)
    (hsr : states.rows = batch) (hsc : states.cols = dim)
    (hcr : cells.rows = batch) (hcc : cells.cols = dim)
    (hir : inputs.rows = batch) (hic : inputs.cols = 4 * dim)
    (hWr : p.W_state.rows = dim) (hWc : p.W_state.cols = 4 * dim)
    (hvi : p.W_cell_to_in.len = dim) (hvf : p.W_cell_to_forget.len = dim)
    (hvo : p.W_cell_to_out.len = dim) (hm : m.len = batch)
    (hone : ∀ i, i < batch → m.entry i = 1) :
    ∃ newH newC inG fG outG nextH nextC,
      inner_apply dim g a p inputs states cells none =
        some (newH, newC, inG, fG, outG) ∧
      inner_apply dim g a p inputs states cells (some m) =
        some (nextH, nextC, inG, fG, outG) ∧
      Mat.EqOn nextH batch dim newH.entry ∧
      Mat.EqOn nextC batch dim newC.entry := by
  refine ⟨_, _, _, _, _, _, _,
    inner_apply_none_eq dim batch g a p inputs states cells
      hsr hsc hcr hcc hir hic hWr hWc hvi hvf hvo,
    inner_apply_some_eq dim batch g a p inputs states cells m
      hsr hsc hcr hcc hir hic hWr hWc hvi hvf hvo hm,
    ⟨rfl, rfl, fun i j hi _ => ?_⟩, ⟨rfl, rfl, fun i j hi _ => ?_⟩⟩ <;>
  · show _ * _ + (1 - _) * _ = _
    rw [hone i hi]
    ring

/-- C8: For every valid tuple of hidden state, cell state and inputs of
matching dimensions — inputs of shape `(batch, 4*dim)`, states of shape
`(batch, dim)` — one step of the recurrent cell produces `next_hidden` and
`next_cell` each of shape `(batch, dim)`, the same batch and dim as its
state inputs. -/
theorem C8_step_output_shapes (dim batch : Nat) (g a : ℝ → ℝ)
    (p : LSTMParams) (inputs states cells : Mat)
    (hsr : states.rows = batch) (hsc : states.cols = dim)
    (hcr : cells.rows = batch) (hcc : cells.cols = dim)
    (hir : inputs.rows = batch) (hic : inputs.cols = 4 * dim)
    (hWr : p.W_state.rows = dim) (hWc : p.W_state.cols = 4 * dim)
    (hvi : p.W_cell_to_in.len = dim) (hvf : p.W_cell_to_forget.len = dim)
    (hvo : p.W_cell_to_out.len = dim) :
    ∃ nextH nextC inG fG outG,
      inner_apply dim g a p inputs states cells none =
        some (nextH, nextC, inG, fG, outG) ∧
      nextH.rows = batch ∧ nextH.cols = dim ∧
      nextC.rows = batch ∧ nextC.cols = dim :=
  ⟨_, _, _, _, _,
    inner_apply_none_eq dim batch g a p inputs states cells
      hsr hsc hcr hcc hir hic hWr hWc hvi hvf hvo,
    rfl, rfl, rfl, rfl⟩

/-- C9: With all other operand shapes valid, the recurrent step fails fast
(with a dimension-mismatch error, modelled as `none`) exactly when the
inputs tensor's last dimension is not `4*dim`; under the precondition that
the inputs width equals `4*dim`, no error is raised. -/
theorem C9_input_width_mismatch_fails (dim batch : Nat) (g a : ℝ → ℝ)
    (p : LSTMParams) (inputs states cells : Mat)
    (hsr : states.rows = batch) (hsc : states.cols = dim)
    (hcr : cells.rows = batch) (hcc : cells.cols = dim)
    (hir : inputs.rows = batch)
    (hWr : p.W_state.rows = dim) (hWc : p.W_state.cols = 4 * dim)
    (hvi : p.W_cell_to_in.len = dim) (hvf : p.W_cell_to_forget.len = dim)
    (hvo : p.W_cell_to_out.len = dim) :
    inner_apply dim g a p inputs states cells none = none ↔
      inputs.cols ≠ 4 * dim := by
  constructor
  · intro hnone heq
    rw [inner_apply_none_eq dim batch g a p inputs states cells
      hsr hsc hcr hcc hir heq hWr hWc hvi hvf hvo] at hnone
    exact Option.noConfusion hnone
  · intro hne
    obtain ⟨W, pin, pforget, pout, pis, pic⟩ := p
    obtain ⟨wr, wc, we⟩ := W
    obtain ⟨sr, sc, se⟩ := states
    obtain ⟨ir, ic, ie⟩ := inputs
    dsimp only at hsr hsc hir hWr hWc hne
    simp only [hsr, hsc, hir, hWr, hWc]
    have hcond : (4 * dim = ic) = False :=
      eq_false (fun h => hne h.symm)
    simp only [inner_apply, Option.bind_eq_bind, Option.some_bind,
      Mat.dot, Mat.add, eq_self_iff_true, and_self, true_and, if_true,
      hcond, and_false, if_false, Option.none_bind]

/-- C6: For every `batch_size` `N`, `initial_states` returns a pair of
tensors whose first dimension is exactly `N`, where every row of the
hidden tensor equals the learned `initial_state_` vector and every row of
the cell tensor equals the learned `initial_cells` vector. -/
theorem C6_initial_states_broadcast (p : LSTMParams) (N : Nat) :
    (initial_states p N).1.rows = N ∧
    (initial_states p N).2.rows = N ∧
    (initial_states p N).1.cols = p.initial_state_.len ∧
    (initial_states p N).2.cols = p.initial_cells.len ∧
    (∀ i j, (initial_states p N).1.entry i j = p.initial_state_.entry j) ∧
    (∀ i j, (initial_states p N).2.entry i j = p.initial_cells.entry j) :=
  ⟨rfl, rfl, rfl, rfl, fun _ _ => rfl, fun _ _ => rfl⟩

/-- C10: Allocation creates `initial_state_` and `initial_cells` as
all-zero vectors of length `dim`; weight initialisation replaces only the
entries of the first four parameters (`W_state` and the three peephole
vectors), leaving `initial_state_` and `initial_cells` unchanged; hence
immediately after allocation and initialisation, `initial_states N`
returns all-zero hidden and cell tensors with first dimension `N`. -/
theorem C10_alloc_init_zero_initial_states (dim N : Nat) (nan : ℝ)
    (fW : Nat → Nat → ℝ) (f_in f_forget f_out : Nat → ℝ) :
    (allocate dim nan).initial_state_.len = dim ∧
    (allocate dim nan).initial_cells.len = dim ∧
    (∀ j, (allocate dim nan).initial_state_.entry j = 0) ∧
    (∀ j, (allocate dim nan).initial_cells.entry j = 0) ∧
    (initWeights fW f_in f_forget f_out (allocate dim nan)).W_state.entry = fW ∧
    (initWeights fW f_in f_forget f_out (allocate dim nan)).W_cell_to_in.entry = f_in ∧
    (initWeights fW f_in f_forget f_out (allocate dim nan)).W_cell_to_forget.entry = f_forget ∧
    (initWeights fW f_in f_forget f_out (allocate dim nan)).W_cell_to_out.entry = f_out ∧
    (initWeights fW f_in f_forget f_out (allocate dim nan)).initial_state_ =
      (allocate dim nan).initial_state_ ∧
    (initWeights fW f_in f_forget f_out (allocate dim nan)).initial_cells =
      (allocate dim nan).initial_cells ∧
    (initial_states (initWeights fW f_in f_forget f_out (allocate dim nan)) N).1.rows = N ∧
    (initial_states (initWeights fW f_in f_forget f_out (allocate dim nan)) N).2.rows = N ∧
    (∀ i j, (initial_states (initWeights fW f_in f_forget f_out (allocate dim nan)) N).1.entry i j = 0) ∧
    (∀ i j, (initial_states (initWeights fW f_in f_forget f_out (allocate dim nan)) N).2.entry i j = 0) :=
  ⟨rfl, rfl, fun _ => rfl, fun _ => rfl, rfl, rfl, rfl, rfl, rfl, rfl,
    rfl, rfl, fun _ _ => rfl, fun _ _ => rfl⟩

/-! ### Concrete witnesses for the recurrent-cell claims (`dim = 1`, `batch = 1`) -/

/-- Concrete parameters with `dim = 1` and all entries zero. -/
def testP : LSTMParams :=
  ⟨⟨1, 4, fun _ _ => 0⟩, ⟨1, fun _ => 0⟩, ⟨1, fun _ => 0⟩, ⟨1, fun _ => 0⟩,
    ⟨1, fun _ => 0⟩, ⟨1, fun _ => 0⟩⟩

/-- A concrete `(1, 4)` inputs matrix. -/
def testIn : Mat := ⟨1, 4, fun _ _ => 0⟩

/-- A concrete `(1, 3)` inputs matrix of the wrong width. -/
def testBadIn : Mat := ⟨1, 3, fun _ _ => 0⟩

/-- A concrete `(1, 1)` state matrix. -/
def testS : Mat := ⟨1, 1, fun _ _ => 0⟩

/-- A concrete `(1, 1)` cell matrix. -/
def testC : Mat := ⟨1, 1, fun _ _ => 0⟩

/-- The all-zero mask of length 1. -/
def testM0 : Vec := ⟨1, fun _ => 0⟩

/-- The all-one mask of length 1. -/
def testM1 : Vec := ⟨1, fun _ => 1⟩

/-- An arbitrary mask of length 1. -/
noncomputable def testM : Vec := ⟨1, fun _ => (1 : ℝ) / 2⟩

/-- Witness for C1 at the concrete `dim = 1`, `batch = 1` input. -/
theorem C1_unmasked_step_matches_spec_witness :
    (testS.rows = 1 ∧ testS.cols = 1 ∧ testC.rows = 1 ∧ testC.cols = 1 ∧
      testIn.rows = 1 ∧ testIn.cols = 4 * 1 ∧ testP.W_state.rows = 1 ∧
      testP.W_state.cols = 4 * 1 ∧ testP.W_cell_to_in.len = 1 ∧
      testP.W_cell_to_forget.len = 1 ∧ testP.W_cell_to_out.len = 1) ∧
    (∃ nextH nextC inG fG outG,
      inner_apply 1 sigmoid Real.tanh testP testIn testS testC none =
        some (nextH, nextC, inG, fG, outG) ∧
      Mat.EqOn nextH 1 1 (specNextHidden 1 testP testIn testS testC) ∧
      Mat.EqOn nextC 1 1 (specNextCell 1 testP testIn testS testC) ∧
      Mat.EqOn inG 1 1 (specInputGate 1 testP testIn testS testC) ∧
      Mat.EqOn fG 1 1 (specForgetGate 1 testP testIn testS testC) ∧
      Mat.EqOn outG 1 1 (specOutputGate 1 testP testIn testS testC)) :=
  ⟨⟨rfl, rfl, rfl, rfl, rfl, rfl, rfl, rfl, rfl, rfl, rfl⟩,
    C1_unmasked_step_matches_spec 1 1 testP testIn testS testC
      rfl rfl rfl rfl rfl rfl rfl rfl rfl rfl rfl⟩

/-- Witness for C3 at the concrete `dim = 1`, `batch = 1` input with the
mask value 1/2. -/
theorem C3_mask_blend_witness :
    (testS.rows = 1 ∧ testS.cols = 1 ∧ testC.rows = 1 ∧ testC.cols = 1 ∧
      testIn.rows = 1 ∧ testIn.cols = 4 * 1 ∧ testP.W_state.rows = 1 ∧
      testP.W_state.cols = 4 * 1 ∧ testP.W_cell_to_in.len = 1 ∧
      testP.W_cell_to_forget.len = 1 ∧ testP.W_cell_to_out.len = 1 ∧
      testM.len = 1) ∧
    (∃ newH newC inG fG outG nextH nextC,
      inner_apply 1 sigmoid Real.tanh testP testIn testS testC none =
        some (newH, newC, inG, fG, outG) ∧
      inner_apply 1 sigmoid Real.tanh testP testIn testS testC (some testM) =
        some (nextH, nextC, inG, fG, outG) ∧
      Mat.EqOn nextH 1 1 (fun i j =>
        testM.entry i * newH.entry i j + (1 - testM.entry i) * testS.entry i j) ∧
      Mat.EqOn nextC 1 1 (fun i j =>
        testM.entry i * newC.entry i j + (1 - testM.entry i) * testC.entry i j)) :=
  ⟨⟨rfl, rfl, rfl, rfl, rfl, rfl, rfl, rfl, rfl, rfl, rfl, rfl⟩,
    C3_mask_blend 1 1 sigmoid Real.tanh testP testIn testS testC testM
      rfl rfl rfl rfl rfl rfl rfl rfl rfl rfl rfl rfl⟩

/-- Witness for C4 at the concrete `dim = 1`, `batch = 1` input with the
all-zero mask. -/
theorem C4_zero_mask_no_update_witness :
    (testS.rows = 1 ∧ testS.cols = 1 ∧ testC.rows = 1 ∧ testC.cols = 1 ∧
      testIn.rows = 1 ∧ testIn.cols = 4 * 1 ∧ testP.W_state.rows = 1 ∧
      testP.W_state.cols = 4 * 1 ∧ testP.W_cell_to_in.len = 1 ∧
      testP.W_cell_to_forget.len = 1 ∧ testP.W_cell_to_out.len = 1 ∧
      testM0.len = 1 ∧ (∀ i, i < 1 → testM0.entry i = 0)) ∧
    (∃ nextH nextC inG fG outG,
      inner_apply 1 sigmoid Real.tanh testP testIn testS testC (some testM0) =
        some (nextH, nextC, inG, fG, outG) ∧
      Mat.EqOn nextH 1 1 testS.entry ∧
      Mat.EqOn nextC 1 1 testC.entry) :=
  ⟨⟨rfl, rfl, rfl, rfl, rfl, rfl, rfl, rfl, rfl, rfl, rfl, rfl,
      fun _ _ => rfl⟩,
    C4_zero_mask_no_update 1 1 sigmoid Real.tanh testP testIn testS testC
      testM0 rfl rfl rfl rfl rfl rfl rfl rfl rfl rfl rfl rfl
      (fun _ _ => rfl)⟩

/-- Witness for C5 at the concrete `dim = 1`, `batch = 1` input with the
all-one mask. -/
theorem C5_ones_mask_eq_unmasked_witness :
    (testS.rows = 1 ∧ testS.cols = 1 ∧ testC.rows = 1 ∧ testC.cols = 1 ∧
      testIn.rows = 1 ∧ testIn.cols = 4 * 1 ∧ testP.W_state.rows = 1 ∧
      testP.W_state.cols = 4 * 1 ∧ testP.W_cell_to_in.len = 1 ∧
      testP.W_cell_to_forget.len = 1 ∧ testP.W_cell_to_out.len = 1 ∧
      testM1.len = 1 ∧ (∀ i, i < 1 → testM1.entry i = 1)) ∧
    (∃ newH newC inG fG outG nextH nextC,
      inner_apply 1 sigmoid Real.tanh testP testIn testS testC none =
        some (newH, newC, inG, fG, outG) ∧
      inner_apply 1 sigmoid Real.tanh testP testIn testS testC (some testM1) =
        some (nextH, nextC, inG, fG, outG) ∧
      Mat.EqOn nextH 1 1 newH.entry ∧
      Mat.EqOn nextC 1 1 newC.entry) :=
  ⟨⟨rfl, rfl, rfl, rfl, rfl, rfl, rfl, rfl, rfl, rfl, rfl, rfl,
      fun _ _ => rfl⟩,
    C5_ones_mask_eq_unmasked 1 1 sigmoid Real.tanh testP testIn testS testC
      testM1 rfl rfl rfl rfl rfl rfl rfl rfl rfl rfl rfl rfl
      (fun _ _ => rfl)⟩

/-- Witness for C8 at the concrete `dim = 1`, `batch = 1` input. -/
theorem C8_step_output_shapes_witness :
    (testS.rows = 1 ∧ testS.cols = 1 ∧ testC.rows = 1 ∧ testC.cols = 1 ∧
      testIn.rows = 1 ∧ testIn.cols = 4 * 1 ∧ testP.W_state.rows = 1 ∧
      testP.W_state.cols = 4 * 1 ∧ testP.W_cell_to_in.len = 1 ∧
      testP.W_cell_to_forget.len = 1 ∧ testP.W_cell_to_out.len = 1) ∧
    (∃ nextH nextC inG fG outG,
      inner_apply 1 sigmoid Real.tanh testP testIn testS testC none =
        some (nextH, nextC, inG, fG, outG) ∧
      nextH.rows = 1 ∧ nextH.cols = 1 ∧ nextC.rows = 1 ∧ nextC.cols = 1) :=
  ⟨⟨rfl, rfl, rfl, rfl, rfl, rfl, rfl, rfl, rfl, rfl, rfl⟩,
    C8_step_output_shapes 1 1 sigmoid Real.tanh testP testIn testS testC
      rfl rfl rfl rfl rfl rfl rfl rfl rfl rfl rfl⟩

/-- Witness for C9 at the concrete `dim = 1`, `batch = 1` input: with an
inputs matrix of width 3 ≠ 4, the step fails. -/
theorem C9_input_width_mismatch_fails_witness :
    (testS.rows = 1 ∧ testS.cols = 1 ∧ testC.rows = 1 ∧ testC.cols = 1 ∧
      testBadIn.rows = 1 ∧ testP.W_state.rows = 1 ∧
      testP.W_state.cols = 4 * 1 ∧ testP.W_cell_to_in.len = 1 ∧
      testP.W_cell_to_forget.len = 1 ∧ testP.W_cell_to_out.len = 1) ∧
    (inner_apply 1 sigmoid Real.tanh testP testBadIn testS testC none = none ↔
      testBadIn.cols ≠ 4 * 1) :=
  ⟨⟨rfl, rfl, rfl, rfl, rfl, rfl, rfl, rfl, rfl, rfl⟩,
    C9_input_width_mismatch_fails 1 1 sigmoid Real.tanh testP testBadIn
      testS testC rfl rfl rfl rfl rfl rfl rfl rfl rfl rfl⟩

end DictLearn
